import Mathlib

/-!
Shallow embedding of the batch notification dispatcher of
`backend/core/admin/notification_admin_api.py`.

The dispatcher (`send_notification_to_users`) resolves a recipient map keyed
by user id, inserts a sentinel tracking record (status `sending`), processes
recipients in chunks of 100 (Python `for i in range(0, len(user_items), 100)`),
re-reads the tracking record's `batch_status` before each chunk (cooperative
cancellation), increments `emails_sent`/`pushes_sent` on per-recipient
delivery success, rewrites the tracking record whenever
`(emails_sent + pushes_sent) % 10 == 0`, sleeps 0.1s between chunks, and
finally rewrites the record with status `completed`.  A separate endpoint
(`cancel_global_notification_batch`) flips the record to `cancelled` when its
current status is `pending` or `sending`, and rejects the request otherwise.

The embedding makes the persisted tracking record explicit (`TrackingMeta`),
and models the interleaving with the cancel endpoint by an optional schedule:
`RunCfg.cancelTime = some n` means the cancel endpoint's read-check-write runs
atomically just before the dispatcher's n-th operation on the tracking record
(operations are numbered: 0 = insert, then each boundary status read, each
periodic progress write, the cancel-found write, and the final write consume
one number).  `RunCfg.crashAt = some n` means the dispatcher's n-th tracking
operation raises; a raise inside the per-recipient `try` block is caught
(`continue`), a raise at the insert / boundary read / cancel-found write /
final write escapes the loop and is handled by the `except` block, which
rewrites the tracking record with `{batch_status: failed, error: msg}` only.
The two nested Python loops are fused into one structural recursion over the
recipient list; a chunk boundary is exactly a global index divisible by 100,
and the inter-chunk sleep happens after index `idx` when `(idx+1) % 100 == 0`
and recipients remain — the same control flow as the source's nested loops.
-/

namespace NotificationBatch

/-- The status strings stored in the tracking record's `batch_status` field
(`unknown` is the cancel endpoint's default when the field is missing). -/
inductive BatchStatus where
  | pending
  | sending
  | completed
  | cancelled
  | failed
  | unknown
deriving DecidableEq, Repr

/-- Terminal statuses: completed, cancelled, failed. -/
def isTerminal : BatchStatus → Bool
  | .completed => true
  | .cancelled => true
  | .failed => true
  | _ => false

/-- The `metadata` JSON object of the sentinel tracking notification.  Counter
fields are `Option` because some writes in the source omit them (the failure
write replaces the metadata with only `batch_id`, `batch_status`, `error`,
`is_batch_tracker`). -/
structure TrackingMeta where
  batch_status : BatchStatus
  total_recipients : Option Nat
  emails_sent : Option Nat
  pushes_sent : Option Nat
  error : Option String
  is_batch_tracker : Bool
deriving DecidableEq, Repr

/-- Outcome of `notification_service.send_notification` for one recipient:
either a result dict with `email_sent` / `push_sent` flags, or an exception
(caught by the per-recipient `except ... continue`). -/
inductive SendOutcome where
  | ok (email_sent push_sent : Bool)
  | err
deriving DecidableEq, Repr

/-- Observable steps of one dispatcher run, in order.  `externalCancel b`
records the concurrently scheduled cancel endpoint running (`b` = whether it
accepted and wrote `cancelled`). -/
inductive Event (α : Type) where
  | insertTracking (m : TrackingMeta)
  | externalCancel (accepted : Bool)
  | boundaryRead (s : BatchStatus)
  | deliver (user : α) (o : SendOutcome)
  | periodicWrite (m : TrackingMeta)
  | cancelFoundWrite (m : TrackingMeta)
  | sleepEvent
  | finalWrite (m : TrackingMeta)
  | errorWrite (m : TrackingMeta)
deriving DecidableEq, Repr

/-- Interleaving / failure schedule for one run (see module docstring). -/
structure RunCfg where
  cancelTime : Option Nat
  crashAt : Option Nat
  crashMsg : String
deriving DecidableEq, Repr

/-- Result of the cancel endpoint. -/
inductive CancelResult where
  | notFound
  | conflict (s : BatchStatus)
  | accepted
deriving DecidableEq, Repr

/-- `POST /admin/notifications/batch/{batch_id}/cancel`: 404 when no tracking
record exists; 400 when `batch_status` is not `pending`/`sending` (record
untouched); otherwise rewrite the record with `{**metadata,
'batch_status': 'cancelled', ...}` (all other fields preserved). -/
def cancel_global_notification_batch (store : Option TrackingMeta) :
    Option TrackingMeta × CancelResult :=
  match store with
  | none => (none, .notFound)
  | some t =>
    if t.batch_status = .pending ∨ t.batch_status = .sending then
      (some { t with batch_status := .cancelled }, .accepted)
    else
      (some t, .conflict t.batch_status)

/-- Tracking state after the scheduled external cancel (if it lands just
before dispatcher tracking-operation `n`). -/
def cancelState (cfg : RunCfg) (n : Nat) (t : TrackingMeta) : TrackingMeta :=
  if cfg.cancelTime = some n then
    (cancel_global_notification_batch (some t)).1.getD t
  else t

/-- Event emitted by the scheduled external cancel at operation `n`. -/
def cancelEvents {α : Type} (cfg : RunCfg) (n : Nat) (t : TrackingMeta) :
    List (Event α) :=
  if cfg.cancelTime = some n then
    [Event.externalCancel
      (decide ((cancel_global_notification_batch (some t)).2 = CancelResult.accepted))]
  else []

/-- Metadata written by the tracking-record insert. -/
def insertMeta (total : Nat) : TrackingMeta :=
  { batch_status := .sending, total_recipients := some total,
    emails_sent := some 0, pushes_sent := some 0,
    error := none, is_batch_tracker := true }

/-- Metadata written by the periodic progress update (full replacement;
always status `sending`). -/
def periodicMeta (total e p : Nat) : TrackingMeta :=
  { batch_status := .sending, total_recipients := some total,
    emails_sent := some e, pushes_sent := some p,
    error := none, is_batch_tracker := true }

/-- Metadata written by the final update after the loop (full replacement). -/
def completedMeta (total e p : Nat) : TrackingMeta :=
  { batch_status := .completed, total_recipients := some total,
    emails_sent := some e, pushes_sent := some p,
    error := none, is_batch_tracker := true }

/-- Metadata written when the dispatcher observes cancellation at a chunk
boundary: `{**metadata_read, 'batch_status': 'cancelled', emails_sent,
pushes_sent, 'cancelled_at': ...}`. -/
def cancelledMeta (t : TrackingMeta) (e p : Nat) : TrackingMeta :=
  { t with batch_status := .cancelled,
           emails_sent := some e, pushes_sent := some p }

/-- Metadata written by the `except` handler: only `batch_id`,
`batch_status: failed`, `error`, `is_batch_tracker` — the counter fields are
dropped. -/
def errorMeta (msg : String) : TrackingMeta :=
  { batch_status := .failed, total_recipients := none,
    emails_sent := none, pushes_sent := none,
    error := some msg, is_batch_tracker := true }

/-- State produced by processing one recipient. -/
structure StepRes (α : Type) where
  events : List (Event α)
  e : Nat
  p : Nat
  n : Nat
  t : TrackingMeta
deriving Repr

/-- Body of the per-recipient `try` block: attempt delivery, on success
increment `emails_sent` / `pushes_sent` per the result flags, then, when
`(emails_sent + pushes_sent) % 10 == 0`, rewrite the tracking record with the
current counters (a tracking operation: the scheduled cancel may land just
before it, and `crashAt` there is caught by the same `try`, skipping only the
write).  An exception from the delivery itself is caught: `continue`. -/
def procRecipient {α : Type} (cfg : RunCfg) (total : Nat) (user : α)
    (o : SendOutcome) (e p n : Nat) (t : TrackingMeta) : StepRes α :=
  match o with
  | .err => ⟨[.deliver user .err], e, p, n, t⟩
  | .ok email_ok push_ok =>
    let e' := if email_ok then e + 1 else e
    let p' := if push_ok then p + 1 else p
    if (e' + p') % 10 = 0 then
      if cfg.crashAt = some n then
        ⟨.deliver user (.ok email_ok push_ok) :: cancelEvents cfg n t,
         e', p', n + 1, cancelState cfg n t⟩
      else
        ⟨.deliver user (.ok email_ok push_ok) :: cancelEvents cfg n t
           ++ [.periodicWrite (periodicMeta total e' p')],
         e', p', n + 1, periodicMeta total e' p'⟩
    else
      ⟨[.deliver user (.ok email_ok push_ok)], e', p', n, t⟩

/-- Result of one dispatcher run: the event trace, the final persisted
tracking record (`none` if it was never inserted), the local
`batch_metadata['status']` / `['error']` of the background task, and the
local counter variables. -/
structure Run (α : Type) where
  events : List (Event α)
  tracking : Option TrackingMeta
  localStatus : BatchStatus
  localError : Option String
  emailsSent : Nat
  pushesSent : Nat
deriving DecidableEq, Repr

/-- The fused chunk/recipient loop of `send_notification_to_users` (see the
module docstring for the correspondence with the two nested Python loops).
`idx` is the global recipient index, `n` the next tracking-operation number,
`e`/`p` the counters, `t` the current persisted tracking record. -/
def sendLoop {α : Type} (cfg : RunCfg) (outcome : Nat → SendOutcome)
    (total : Nat) :
    List (α × α) → Nat → Nat → Nat → Nat → TrackingMeta → Run α
  | [], _, e, p, n, t =>
    -- after the loop: final tracking update (operation n)
    if cfg.crashAt = some n then
      { events := cancelEvents cfg n t ++ [.errorWrite (errorMeta cfg.crashMsg)],
        tracking := some (errorMeta cfg.crashMsg),
        localStatus := .failed, localError := some cfg.crashMsg,
        emailsSent := e, pushesSent := p }
    else
      { events := cancelEvents cfg n t ++ [.finalWrite (completedMeta total e p)],
        tracking := some (completedMeta total e p),
        localStatus := .completed, localError := none,
        emailsSent := e, pushesSent := p }
  | r :: rs, idx, e, p, n, t =>
    if idx % 100 = 0 then
      -- chunk boundary: re-read the tracking record's status (operation n)
      if cfg.crashAt = some n then
        { events := cancelEvents cfg n t ++ [.errorWrite (errorMeta cfg.crashMsg)],
          tracking := some (errorMeta cfg.crashMsg),
          localStatus := .failed, localError := some cfg.crashMsg,
          emailsSent := e, pushesSent := p }
      else if (cancelState cfg n t).batch_status = .cancelled then
        -- cancellation observed: write the cancel-found update (operation n+1)
        if cfg.crashAt = some (n + 1) then
          { events := cancelEvents cfg n t
              ++ [.boundaryRead (cancelState cfg n t).batch_status]
              ++ cancelEvents cfg (n + 1) (cancelState cfg n t)
              ++ [.errorWrite (errorMeta cfg.crashMsg)],
            tracking := some (errorMeta cfg.crashMsg),
            localStatus := .failed, localError := some cfg.crashMsg,
            emailsSent := e, pushesSent := p }
        else
          { events := cancelEvents cfg n t
              ++ [.boundaryRead (cancelState cfg n t).batch_status]
              ++ cancelEvents cfg (n + 1) (cancelState cfg n t)
              ++ [.cancelFoundWrite (cancelledMeta (cancelState cfg n t) e p)],
            tracking := some (cancelledMeta (cancelState cfg n t) e p),
            localStatus := .cancelled, localError := none,
            emailsSent := e, pushesSent := p }
      else
        let s := procRecipient cfg total r.1 (outcome idx) e p (n + 1)
                   (cancelState cfg n t)
        let tail := sendLoop cfg outcome total rs (idx + 1) s.e s.p s.n s.t
        { tail with events := cancelEvents cfg n t
            ++ [.boundaryRead (cancelState cfg n t).batch_status]
            ++ s.events
            ++ (if (idx + 1) % 100 = 0 ∧ rs.isEmpty = false
                then [Event.sleepEvent] else [])
            ++ tail.events }
    else
      let s := procRecipient cfg total r.1 (outcome idx) e p n t
      let tail := sendLoop cfg outcome total rs (idx + 1) s.e s.p s.n s.t
      { tail with events := s.events
          ++ (if (idx + 1) % 100 = 0 ∧ rs.isEmpty = false
              then [Event.sleepEvent] else [])
          ++ tail.events }

/-- The background task `send_notification_to_users`, from the resolved
recipient list (`user_account_map.items()`) on.  Zero recipients: set the
local `batch_metadata` to failed / `'No recipients found'` and `return` —
before the tracking record is inserted.  Otherwise insert the tracking record
(operation 0; a raise there or during resolution escapes with
`tracking_notification_id` unset, so the except handler writes nothing) and
run the chunk loop. -/
def send_notification_to_users {α : Type} (cfg : RunCfg)
    (recipients : List (α × α)) (outcome : Nat → SendOutcome) : Run α :=
  if recipients.isEmpty then
    { events := [], tracking := none, localStatus := .failed,
      localError := some "No recipients found", emailsSent := 0, pushesSent := 0 }
  else if cfg.crashAt = some 0 then
    { events := [], tracking := none, localStatus := .failed,
      localError := some cfg.crashMsg, emailsSent := 0, pushesSent := 0 }
  else
    let t0 := insertMeta recipients.length
    let tail := sendLoop cfg outcome recipients.length recipients 0 0 0 1 t0
    { tail with events := .insertTracking t0 :: tail.events }

/-- Python-dict insertion: an existing key keeps its position and gets the
new value; a new key is appended.  `user_account_map[user_id] = account_id`. -/
def dictInsert {α β : Type} [DecidableEq α] (m : List (α × β)) (k : α) (v : β) :
    List (α × β) :=
  if m.any fun q => decide (q.1 = k) then
    m.map fun q => if q.1 = k then (k, v) else q
  else m ++ [(k, v)]

/-- Python truthiness of an optional list (`if target_user_ids:`): `None` and
`[]` are falsy. -/
def truthy {α : Type} : Option (List α) → Bool
  | some (_ :: _) => true
  | _ => false

/-- Recipient resolution building `user_account_map` (a dict keyed on user
id).  The three branches of the source: explicit `target_user_ids` (per-user
personal-account lookup `accountOf`), `target_account_ids` (rows
`(id, primary_owner_user_id)` returned by `accountsById`), or all personal
accounts (`allPersonalAccounts`); rows with a null owner are skipped. -/
def buildUserAccountMap {α : Type} [DecidableEq α]
    (target_user_ids target_account_ids : Option (List α))
    (accountOf : α → Option α)
    (accountsById : List α → List (α × Option α))
    (allPersonalAccounts : List (α × Option α)) : List (α × α) :=
  if truthy target_user_ids then
    (target_user_ids.getD []).foldl
      (fun m uid =>
        match accountOf uid with
        | some aid => dictInsert m uid aid
        | none => m) []
  else if truthy target_account_ids then
    (accountsById (target_account_ids.getD [])).foldl
      (fun m row =>
        match row.2 with
        | some uid => dictInsert m uid row.1
        | none => m) []
  else
    allPersonalAccounts.foldl
      (fun m row =>
        match row.2 with
        | some uid => dictInsert m uid row.1
        | none => m) []

/-- The admin JWT claims used by the submit endpoint. -/
structure AdminToken where
  user_id : Option String
  sub : Option String
deriving DecidableEq, Repr

/-- Body of `POST /admin/notifications/send-global`. -/
structure GlobalNotificationRequest (α : Type) where
  title : String
  message : String
  notification_type : String
  send_email : Bool
  send_push : Bool
  target_account_ids : Option (List α)
  target_user_ids : Option (List α)
deriving DecidableEq, Repr

/-- A scheduled `background_tasks.add_task(send_notification_to_users, ...)`
call: the arguments of the deferred dispatcher invocation. -/
structure ScheduledSend (α : Type) where
  batch_id : String
  created_by : String
  target_account_ids : Option (List α)
  target_user_ids : Option (List α)
  title : String
  message : String
  notification_type : String
  send_email : Bool
  send_push : Bool
deriving DecidableEq, Repr

/-- The JSON body returned by the submit endpoint. -/
structure SubmitResponse where
  batch_id : String
  status : BatchStatus
  message : String
  title : String
deriving DecidableEq, Repr

/-- `POST /admin/notifications/send-global`: 400 when no admin user id is in
the token; otherwise generate a batch id (passed in, the source uses
`uuid.uuid4()`), append the dispatcher invocation to the background-task
queue, and return `status: 'pending'` immediately.  The tracking store is
passed through untouched: no resolution or delivery happens before the
response. -/
def send_global_notification {α : Type} (req : GlobalNotificationRequest α)
    (admin : AdminToken) (batch_id : String) (store : Option TrackingMeta)
    (tasks : List (ScheduledSend α)) :
    Except Nat (SubmitResponse × Option TrackingMeta × List (ScheduledSend α)) :=
  match admin.user_id.orElse fun _ => admin.sub with
  | none => .error 400
  | some uid =>
    .ok ({ batch_id := batch_id, status := .pending,
           message := "Global notification queued for sending",
           title := req.title },
         store,
         tasks ++ [⟨batch_id, uid, req.target_account_ids, req.target_user_ids,
                    req.title, req.message, req.notification_type,
                    req.send_email, req.send_push⟩])

/-- The status written to the tracking record by an event, if any (reads and
delivery attempts write nothing; a rejected external cancel writes nothing). -/
def writtenStatus {α : Type} : Event α → Option BatchStatus
  | .insertTracking m => some m.batch_status
  | .periodicWrite m => some m.batch_status
  | .cancelFoundWrite m => some m.batch_status
  | .finalWrite m => some m.batch_status
  | .errorWrite m => some m.batch_status
  | .externalCancel true => some .cancelled
  | _ => none

/-- The successive `batch_status` values persisted to the tracking record. -/
def statusHistory {α : Type} (evs : List (Event α)) : List BatchStatus :=
  evs.filterMap writtenStatus

/-- Once a terminal status appears, every later persisted status equals it. -/
def monotonicHistory : List BatchStatus → Bool
  | [] => true
  | s :: rest =>
    if isTerminal s then rest.all fun x => decide (x = s)
    else monotonicHistory rest

/-- Delivery-attempt events. -/
def isDeliver {α : Type} : Event α → Bool
  | .deliver _ _ => true
  | _ => false

/-- Periodic progress-write events. -/
def isPeriodicWrite {α : Type} : Event α → Bool
  | .periodicWrite _ => true
  | _ => false

/-- Chunk-boundary status-read events. -/
def isBoundaryRead {α : Type} : Event α → Bool
  | .boundaryRead _ => true
  | _ => false

/-- Inter-chunk sleep events. -/
def isSleep {α : Type} : Event α → Bool
  | .sleepEvent => true
  | _ => false

/-- An accepted external cancel (the cancel endpoint wrote `cancelled`). -/
def isAcceptedCancel {α : Type} : Event α → Bool
  | .externalCancel b => b
  | _ => false

/-- The dispatcher observing `cancelled` at a chunk-boundary read. -/
def cancelObserved {α : Type} : Event α → Bool
  | .boundaryRead .cancelled => true
  | _ => false

/-- No delivery attempt occurs after the first chunk-boundary read that
observes `cancelled`. -/
def noDeliverAfterCancelObs {α : Type} : List (Event α) → Bool
  | [] => true
  | ev :: rest =>
    if cancelObserved ev then rest.all fun x => !(isDeliver x)
    else noDeliverAfterCancelObs rest

/-- Users that received a delivery attempt, in order. -/
def deliveredUsers {α : Type} (evs : List (Event α)) : List α :=
  evs.filterMap fun ev =>
    match ev with
    | .deliver u _ => some u
    | _ => none

/-- Number of delivery attempts whose result had `email_sent` true. -/
def emailsDelivered {α : Type} (evs : List (Event α)) : Nat :=
  evs.countP fun ev =>
    match ev with
    | .deliver _ (.ok true _) => true
    | _ => false

/-- Number of delivery attempts whose result had `push_sent` true. -/
def pushesDelivered {α : Type} (evs : List (Event α)) : Nat :=
  evs.countP fun ev =>
    match ev with
    | .deliver _ (.ok _ true) => true
    | _ => false

/-- Contribution of one delivery outcome to `emails_sent`. -/
def emailInc : SendOutcome → Nat
  | .ok a _ => if a then 1 else 0
  | .err => 0

/-- Contribution of one delivery outcome to `pushes_sent`. -/
def pushInc : SendOutcome → Nat
  | .ok _ b => if b then 1 else 0
  | .err => 0

/-- Expected `emails_sent` over `k` recipients starting at global index
`idx`: the number whose delivery attempt returned `email_sent = true`. -/
def okEmails (outcome : Nat → SendOutcome) : Nat → Nat → Nat
  | _, 0 => 0
  | idx, Nat.succ k => emailInc (outcome idx) + okEmails outcome (idx + 1) k

/-- Expected `pushes_sent` over `k` recipients starting at index `idx`. -/
def okPushes (outcome : Nat → SendOutcome) : Nat → Nat → Nat
  | _, 0 => 0
  | idx, Nat.succ k => pushInc (outcome idx) + okPushes outcome (idx + 1) k

/-! ### Basic lemmas -/

theorem cancelState_none {cfg : RunCfg} (h : cfg.cancelTime = none)
    (n : Nat) (t : TrackingMeta) : cancelState cfg n t = t := by
  simp [cancelState, h]

theorem cancelEvents_none {α : Type} {cfg : RunCfg} (h : cfg.cancelTime = none)
    (n : Nat) (t : TrackingMeta) : cancelEvents (α := α) cfg n t = [] := by
  simp [cancelEvents, h]

theorem cancelEvents_shape {α : Type} (cfg : RunCfg) (n : Nat) (t : TrackingMeta) :
    cancelEvents (α := α) cfg n t = [] ∨
    ∃ b, cancelEvents (α := α) cfg n t = [Event.externalCancel b] := by
  unfold cancelEvents
  split
  · exact Or.inr ⟨_, rfl⟩
  · exact Or.inl rfl

theorem noObs_cancelEvents {α : Type} (cfg : RunCfg) (n : Nat) (t : TrackingMeta) :
    ∀ ev ∈ cancelEvents (α := α) cfg n t, cancelObserved ev = false := by
  rcases cancelEvents_shape (α := α) cfg n t with h | ⟨b, h⟩ <;>
    simp [h, cancelObserved]

theorem noDeliver_cancelEvents {α : Type} (cfg : RunCfg) (n : Nat) (t : TrackingMeta) :
    ∀ ev ∈ cancelEvents (α := α) cfg n t, isDeliver ev = false := by
  rcases cancelEvents_shape (α := α) cfg n t with h | ⟨b, h⟩ <;>
    simp [h, isDeliver]

theorem deliveredUsers_cancelEvents {α : Type} (cfg : RunCfg) (n : Nat)
    (t : TrackingMeta) : deliveredUsers (cancelEvents (α := α) cfg n t) = [] := by
  rcases cancelEvents_shape (α := α) cfg n t with h | ⟨b, h⟩ <;>
    simp [h, deliveredUsers]

theorem emailsDelivered_cancelEvents {α : Type} (cfg : RunCfg) (n : Nat)
    (t : TrackingMeta) : emailsDelivered (cancelEvents (α := α) cfg n t) = 0 := by
  rcases cancelEvents_shape (α := α) cfg n t with h | ⟨b, h⟩ <;>
    simp [h, emailsDelivered]

theorem pushesDelivered_cancelEvents {α : Type} (cfg : RunCfg) (n : Nat)
    (t : TrackingMeta) : pushesDelivered (cancelEvents (α := α) cfg n t) = 0 := by
  rcases cancelEvents_shape (α := α) cfg n t with h | ⟨b, h⟩ <;>
    simp [h, pushesDelivered]

theorem countDeliver_cancelEvents {α : Type} (cfg : RunCfg) (n : Nat)
    (t : TrackingMeta) : (cancelEvents (α := α) cfg n t).countP isDeliver = 0 := by
  rcases cancelEvents_shape (α := α) cfg n t with h | ⟨b, h⟩ <;>
    simp [h, isDeliver]

/-! ### List glue lemmas -/

theorem statusHistory_append {α : Type} (a b : List (Event α)) :
    statusHistory (a ++ b) = statusHistory a ++ statusHistory b :=
  List.filterMap_append a b writtenStatus

theorem deliveredUsers_append {α : Type} (a b : List (Event α)) :
    deliveredUsers (a ++ b) = deliveredUsers a ++ deliveredUsers b :=
  List.filterMap_append a b _

theorem emailsDelivered_append {α : Type} (a b : List (Event α)) :
    emailsDelivered (a ++ b) = emailsDelivered a + emailsDelivered b :=
  List.countP_append _ a b

theorem pushesDelivered_append {α : Type} (a b : List (Event α)) :
    pushesDelivered (a ++ b) = pushesDelivered a + pushesDelivered b :=
  List.countP_append _ a b

theorem monotonicHistory_sending_cons (h : List BatchStatus) :
    monotonicHistory (.sending :: h) = monotonicHistory h := by
  simp [monotonicHistory, isTerminal]

theorem noDeliverAfter_of_noObs {α : Type} (l : List (Event α))
    (h : ∀ ev ∈ l, cancelObserved ev = false) :
    noDeliverAfterCancelObs l = true := by
  induction l with
  | nil => rfl
  | cons ev rest ih =>
    have hev := h ev (List.mem_cons_self ev rest)
    simp [noDeliverAfterCancelObs, hev]
    exact ih fun x hx => h x (List.mem_cons_of_mem ev hx)

theorem noDeliverAfter_append_of_noObs {α : Type} (a b : List (Event α))
    (h : ∀ ev ∈ a, cancelObserved ev = false) :
    noDeliverAfterCancelObs (a ++ b) = noDeliverAfterCancelObs b := by
  induction a with
  | nil => rfl
  | cons ev rest ih =>
    have hev := h ev (List.mem_cons_self ev rest)
    simp only [List.cons_append, noDeliverAfterCancelObs, hev, Bool.false_eq_true,
      if_false]
    exact ih fun x hx => h x (List.mem_cons_of_mem ev hx)

/-! ### Per-recipient step lemmas -/

theorem procRecipient_e {α : Type} (cfg : RunCfg) (total : Nat) (u : α)
    (o : SendOutcome) (e p n : Nat) (t : TrackingMeta) :
    (procRecipient cfg total u o e p n t).e = e + emailInc o := by
  cases o with
  | err => simp [procRecipient, emailInc]
  | ok a b =>
    simp only [procRecipient, emailInc]
    by_cases h10 : ((if a then e + 1 else e) + if b then p + 1 else p) % 10 = 0
    · by_cases hcr : cfg.crashAt = some n
      · simp [h10, hcr]; cases a <;> simp
      · simp [h10, hcr]; cases a <;> simp
    · simp [h10]; cases a <;> simp

theorem procRecipient_p {α : Type} (cfg : RunCfg) (total : Nat) (u : α)
    (o : SendOutcome) (e p n : Nat) (t : TrackingMeta) :
    (procRecipient cfg total u o e p n t).p = p + pushInc o := by
  cases o with
  | err => simp [procRecipient, pushInc]
  | ok a b =>
    simp only [procRecipient, pushInc]
    by_cases h10 : ((if a then e + 1 else e) + if b then p + 1 else p) % 10 = 0
    · by_cases hcr : cfg.crashAt = some n
      · simp [h10, hcr]; cases b <;> simp
      · simp [h10, hcr]; cases b <;> simp
    · simp [h10]; cases b <;> simp

theorem procRecipient_status {α : Type} {cfg : RunCfg}
    (hc : cfg.cancelTime = none) (total : Nat) (u : α) (o : SendOutcome)
    (e p n : Nat) {t : TrackingMeta} (ht : t.batch_status = .sending) :
    (procRecipient cfg total u o e p n t).t.batch_status = .sending := by
  cases o with
  | err => simpa [procRecipient] using ht
  | ok a b =>
    simp only [procRecipient]
    by_cases h10 : ((if a then e + 1 else e) + if b then p + 1 else p) % 10 = 0
    · by_cases hcr : cfg.crashAt = some n
      · simpa [h10, hcr, cancelState_none hc] using ht
      · simp [h10, hcr, periodicMeta]
    · simpa [h10] using ht

theorem deliveredUsers_procRecipient {α : Type} (cfg : RunCfg) (total : Nat)
    (u : α) (o : SendOutcome) (e p n : Nat) (t : TrackingMeta) :
    deliveredUsers (procRecipient cfg total u o e p n t).events = [u] := by
  cases o with
  | err => simp [procRecipient, deliveredUsers]
  | ok a b =>
    rcases cancelEvents_shape (α := α) cfg n t with h | ⟨c, h⟩ <;>
    · simp only [procRecipient]
      by_cases h10 : ((if a then e + 1 else e) + if b then p + 1 else p) % 10 = 0 <;>
        by_cases hcr : cfg.crashAt = some n <;>
          simp [h10, hcr, h, deliveredUsers]

theorem emailsDelivered_procRecipient {α : Type} (cfg : RunCfg) (total : Nat)
    (u : α) (o : SendOutcome) (e p n : Nat) (t : TrackingMeta) :
    emailsDelivered (procRecipient cfg total u o e p n t).events = emailInc o := by
  cases o with
  | err => simp [procRecipient, emailsDelivered, emailInc]
  | ok a b =>
    rcases cancelEvents_shape (α := α) cfg n t with h | ⟨c, h⟩ <;>
    · simp only [procRecipient, emailInc]
      by_cases h10 : ((if a then e + 1 else e) + if b then p + 1 else p) % 10 = 0 <;>
        by_cases hcr : cfg.crashAt = some n <;>
          simp [h10, hcr, h, emailsDelivered, List.countP_cons] <;>
            cases a <;> simp

theorem pushesDelivered_procRecipient {α : Type} (cfg : RunCfg) (total : Nat)
    (u : α) (o : SendOutcome) (e p n : Nat) (t : TrackingMeta) :
    pushesDelivered (procRecipient cfg total u o e p n t).events = pushInc o := by
  cases o with
  | err => simp [procRecipient, pushesDelivered, pushInc]
  | ok a b =>
    rcases cancelEvents_shape (α := α) cfg n t with h | ⟨c, h⟩ <;>
    · simp only [procRecipient, pushInc]
      by_cases h10 : ((if a then e + 1 else e) + if b then p + 1 else p) % 10 = 0 <;>
        by_cases hcr : cfg.crashAt = some n <;>
          simp [h10, hcr, h, pushesDelivered, List.countP_cons] <;>
            cases b <;> simp

theorem countDeliver_procRecipient {α : Type} (cfg : RunCfg) (total : Nat)
    (u : α) (o : SendOutcome) (e p n : Nat) (t : TrackingMeta) :
    (procRecipient cfg total u o e p n t).events.countP isDeliver = 1 := by
  cases o with
  | err => simp [procRecipient, isDeliver]
  | ok a b =>
    rcases cancelEvents_shape (α := α) cfg n t with h | ⟨c, h⟩ <;>
    · simp only [procRecipient]
      by_cases h10 : ((if a then e + 1 else e) + if b then p + 1 else p) % 10 = 0 <;>
        by_cases hcr : cfg.crashAt = some n <;>
          simp [h10, hcr, h, List.countP_cons, isDeliver]

theorem noObs_procRecipient {α : Type} (cfg : RunCfg) (total : Nat)
    (u : α) (o : SendOutcome) (e p n : Nat) (t : TrackingMeta) :
    ∀ ev ∈ (procRecipient cfg total u o e p n t).events,
      cancelObserved ev = false := by
  cases o with
  | err => simp [procRecipient, cancelObserved]
  | ok a b =>
    simp only [procRecipient]
    by_cases h10 : ((if a then e + 1 else e) + if b then p + 1 else p) % 10 = 0
    · by_cases hcr : cfg.crashAt = some n
      · simp only [h10, if_true, hcr, if_pos]
        intro ev hev
        rcases List.mem_cons.mp hev with rfl | hev
        · rfl
        · exact noObs_cancelEvents cfg n t ev hev
      · simp only [h10, if_true, hcr, if_neg, if_false]
        intro ev hev
        rcases List.mem_cons.mp hev with rfl | hev
        · rfl
        · rcases List.mem_append.mp hev with hev | hev
          · exact noObs_cancelEvents cfg n t ev hev
          · rcases List.mem_singleton.mp hev with rfl
            rfl
    · simp only [h10, if_neg, if_false]
      intro ev hev
      rcases List.mem_singleton.mp hev with rfl
      rfl

theorem statusHistory_procRecipient_none {α : Type} {cfg : RunCfg}
    (hc : cfg.cancelTime = none) (total : Nat) (u : α) (o : SendOutcome)
    (e p n : Nat) (t : TrackingMeta) :
    statusHistory (procRecipient cfg total u o e p n t).events = [] ∨
    statusHistory (procRecipient cfg total u o e p n t).events =
      [BatchStatus.sending] := by
  cases o with
  | err => left; simp [procRecipient, statusHistory, writtenStatus]
  | ok a b =>
    simp only [procRecipient]
    by_cases h10 : ((if a then e + 1 else e) + if b then p + 1 else p) % 10 = 0
    · by_cases hcr : cfg.crashAt = some n
      · left
        simp [h10, hcr, statusHistory, cancelEvents_none hc, writtenStatus]
      · right
        simp [h10, hcr, statusHistory, cancelEvents_none hc, writtenStatus,
          periodicMeta]
    · left; simp [h10, statusHistory, writtenStatus]

/-! ### Branch-unfolding lemmas for the dispatcher loop -/

theorem sendLoop_nil_done {α : Type} (cfg : RunCfg) (outcome : Nat → SendOutcome)
    (total idx e p n : Nat) (t : TrackingMeta) (hcr : ¬ cfg.crashAt = some n) :
    sendLoop (α := α) cfg outcome total [] idx e p n t =
      { events := cancelEvents cfg n t ++ [.finalWrite (completedMeta total e p)],
        tracking := some (completedMeta total e p),
        localStatus := .completed, localError := none,
        emailsSent := e, pushesSent := p } := by
  simp only [sendLoop]
  rw [if_neg hcr]

theorem sendLoop_nil_crash {α : Type} (cfg : RunCfg) (outcome : Nat → SendOutcome)
    (total idx e p n : Nat) (t : TrackingMeta) (hcr : cfg.crashAt = some n) :
    sendLoop (α := α) cfg outcome total [] idx e p n t =
      { events := cancelEvents cfg n t ++ [.errorWrite (errorMeta cfg.crashMsg)],
        tracking := some (errorMeta cfg.crashMsg),
        localStatus := .failed, localError := some cfg.crashMsg,
        emailsSent := e, pushesSent := p } := by
  simp only [sendLoop]
  rw [if_pos hcr]

theorem sendLoop_cons_bcrash {α : Type} (cfg : RunCfg) (outcome : Nat → SendOutcome)
    (total : Nat) (r : α × α) (rs : List (α × α)) (idx e p n : Nat)
    (t : TrackingMeta) (hb : idx % 100 = 0) (hcr : cfg.crashAt = some n) :
    sendLoop cfg outcome total (r :: rs) idx e p n t =
      { events := cancelEvents cfg n t ++ [.errorWrite (errorMeta cfg.crashMsg)],
        tracking := some (errorMeta cfg.crashMsg),
        localStatus := .failed, localError := some cfg.crashMsg,
        emailsSent := e, pushesSent := p } := by
  simp only [sendLoop]
  rw [if_pos hb, if_pos hcr]

theorem sendLoop_cons_cancelled {α : Type} (cfg : RunCfg)
    (outcome : Nat → SendOutcome) (total : Nat) (r : α × α) (rs : List (α × α))
    (idx e p n : Nat) (t : TrackingMeta) (hb : idx % 100 = 0)
    (hcr : ¬ cfg.crashAt = some n)
    (hcc : (cancelState cfg n t).batch_status = .cancelled)
    (hcr2 : ¬ cfg.crashAt = some (n + 1)) :
    sendLoop cfg outcome total (r :: rs) idx e p n t =
      { events := cancelEvents cfg n t
          ++ [.boundaryRead (cancelState cfg n t).batch_status]
          ++ cancelEvents cfg (n + 1) (cancelState cfg n t)
          ++ [.cancelFoundWrite (cancelledMeta (cancelState cfg n t) e p)],
        tracking := some (cancelledMeta (cancelState cfg n t) e p),
        localStatus := .cancelled, localError := none,
        emailsSent := e, pushesSent := p } := by
  simp only [sendLoop]
  rw [if_pos hb, if_neg hcr, if_pos hcc, if_neg hcr2]

theorem sendLoop_cons_cancelled_crash {α : Type} (cfg : RunCfg)
    (outcome : Nat → SendOutcome) (total : Nat) (r : α × α) (rs : List (α × α))
    (idx e p n : Nat) (t : TrackingMeta) (hb : idx % 100 = 0)
    (hcr : ¬ cfg.crashAt = some n)
    (hcc : (cancelState cfg n t).batch_status = .cancelled)
    (hcr2 : cfg.crashAt = some (n + 1)) :
    sendLoop cfg outcome total (r :: rs) idx e p n t =
      { events := cancelEvents cfg n t
          ++ [.boundaryRead (cancelState cfg n t).batch_status]
          ++ cancelEvents cfg (n + 1) (cancelState cfg n t)
          ++ [.errorWrite (errorMeta cfg.crashMsg)],
        tracking := some (errorMeta cfg.crashMsg),
        localStatus := .failed, localError := some cfg.crashMsg,
        emailsSent := e, pushesSent := p } := by
  simp only [sendLoop]
  rw [if_pos hb, if_neg hcr, if_pos hcc, if_pos hcr2]

theorem sendLoop_cons_boundary {α : Type} (cfg : RunCfg)
    (outcome : Nat → SendOutcome) (total : Nat) (r : α × α) (rs : List (α × α))
    (idx e p n : Nat) (t : TrackingMeta) (hb : idx % 100 = 0)
    (hcr : ¬ cfg.crashAt = some n)
    (hcc : ¬ (cancelState cfg n t).batch_status = .cancelled) :
    sendLoop cfg outcome total (r :: rs) idx e p n t =
      { sendLoop cfg outcome total rs (idx + 1)
          (procRecipient cfg total r.1 (outcome idx) e p (n + 1)
            (cancelState cfg n t)).e
          (procRecipient cfg total r.1 (outcome idx) e p (n + 1)
            (cancelState cfg n t)).p
          (procRecipient cfg total r.1 (outcome idx) e p (n + 1)
            (cancelState cfg n t)).n
          (procRecipient cfg total r.1 (outcome idx) e p (n + 1)
            (cancelState cfg n t)).t with
        events := cancelEvents cfg n t
          ++ [.boundaryRead (cancelState cfg n t).batch_status]
          ++ (procRecipient cfg total r.1 (outcome idx) e p (n + 1)
               (cancelState cfg n t)).events
          ++ (if (idx + 1) % 100 = 0 ∧ rs.isEmpty = false
              then [Event.sleepEvent] else [])
          ++ (sendLoop cfg outcome total rs (idx + 1)
               (procRecipient cfg total r.1 (outcome idx) e p (n + 1)
                 (cancelState cfg n t)).e
               (procRecipient cfg total r.1 (outcome idx) e p (n + 1)
                 (cancelState cfg n t)).p
               (procRecipient cfg total r.1 (outcome idx) e p (n + 1)
                 (cancelState cfg n t)).n
               (procRecipient cfg total r.1 (outcome idx) e p (n + 1)
                 (cancelState cfg n t)).t).events } := by
  simp only [sendLoop]
  rw [if_pos hb, if_neg hcr, if_neg hcc]

theorem sendLoop_cons_inner {α : Type} (cfg : RunCfg)
    (outcome : Nat → SendOutcome) (total : Nat) (r : α × α) (rs : List (α × α))
    (idx e p n : Nat) (t : TrackingMeta) (hb : ¬ idx % 100 = 0) :
    sendLoop cfg outcome total (r :: rs) idx e p n t =
      { sendLoop cfg outcome total rs (idx + 1)
          (procRecipient cfg total r.1 (outcome idx) e p n t).e
          (procRecipient cfg total r.1 (outcome idx) e p n t).p
          (procRecipient cfg total r.1 (outcome idx) e p n t).n
          (procRecipient cfg total r.1 (outcome idx) e p n t).t with
        events := (procRecipient cfg total r.1 (outcome idx) e p n t).events
          ++ (if (idx + 1) % 100 = 0 ∧ rs.isEmpty = false
              then [Event.sleepEvent] else [])
          ++ (sendLoop cfg outcome total rs (idx + 1)
               (procRecipient cfg total r.1 (outcome idx) e p n t).e
               (procRecipient cfg total r.1 (outcome idx) e p n t).p
               (procRecipient cfg total r.1 (outcome idx) e p n t).n
               (procRecipient cfg total r.1 (outcome idx) e p n t).t).events } := by
  simp only [sendLoop]
  rw [if_neg hb]

theorem countDeliver_sleepEvs {α : Type} (c : Prop) [Decidable c] :
    (if c then [Event.sleepEvent (α := α)] else []).countP isDeliver = 0 := by
  split <;> simp [isDeliver]

theorem deliveredUsers_sleepEvs {α : Type} (c : Prop) [Decidable c] :
    deliveredUsers (if c then [Event.sleepEvent (α := α)] else []) = [] := by
  split <;> simp [deliveredUsers]

theorem emailsDelivered_sleepEvs {α : Type} (c : Prop) [Decidable c] :
    emailsDelivered (if c then [Event.sleepEvent (α := α)] else []) = 0 := by
  split <;> simp [emailsDelivered]

theorem pushesDelivered_sleepEvs {α : Type} (c : Prop) [Decidable c] :
    pushesDelivered (if c then [Event.sleepEvent (α := α)] else []) = 0 := by
  split <;> simp [pushesDelivered]

theorem statusHistory_sleepEvs {α : Type} (c : Prop) [Decidable c] :
    statusHistory (if c then [Event.sleepEvent (α := α)] else []) = [] := by
  split <;> simp [statusHistory, writtenStatus]

theorem noObs_sleepEvs {α : Type} (c : Prop) [Decidable c] :
    ∀ ev ∈ (if c then [Event.sleepEvent (α := α)] else []),
      cancelObserved ev = false := by
  split <;> simp [cancelObserved]

/-! ### Main run lemmas (clean run: no concurrent cancel, no crash) -/

theorem sendLoop_clean {α : Type} {cfg : RunCfg} (outcome : Nat → SendOutcome)
    (total : Nat) (hc : cfg.cancelTime = none) (hx : cfg.crashAt = none) :
    ∀ (l : List (α × α)) (idx e p n : Nat) (t : TrackingMeta),
      t.batch_status = .sending →
      (sendLoop cfg outcome total l idx e p n t).localStatus = .completed ∧
      (sendLoop cfg outcome total l idx e p n t).localError = none ∧
      (sendLoop cfg outcome total l idx e p n t).emailsSent =
        e + okEmails outcome idx l.length ∧
      (sendLoop cfg outcome total l idx e p n t).pushesSent =
        p + okPushes outcome idx l.length ∧
      (sendLoop cfg outcome total l idx e p n t).tracking =
        some (completedMeta total (e + okEmails outcome idx l.length)
          (p + okPushes outcome idx l.length)) ∧
      (sendLoop cfg outcome total l idx e p n t).events.countP isDeliver =
        l.length := by
  intro l
  induction l with
  | nil =>
    intro idx e p n t ht
    have hcr : ¬ cfg.crashAt = some n := by simp [hx]
    rw [sendLoop_nil_done cfg outcome total idx e p n t hcr]
    simp [okEmails, okPushes, cancelEvents_none hc, isDeliver]
  | cons r rs ih =>
    intro idx e p n t ht
    by_cases hb : idx % 100 = 0
    · have hcr : ¬ cfg.crashAt = some n := by simp [hx]
      have hcc : ¬ (cancelState cfg n t).batch_status = .cancelled := by
        rw [cancelState_none hc, ht]; simp
      rw [sendLoop_cons_boundary cfg outcome total r rs idx e p n t hb hcr hcc,
        cancelState_none hc]
      obtain ⟨h1, h2, h3, h4, h5, h6⟩ := ih (idx + 1)
        (procRecipient cfg total r.1 (outcome idx) e p (n + 1) t).e
        (procRecipient cfg total r.1 (outcome idx) e p (n + 1) t).p
        (procRecipient cfg total r.1 (outcome idx) e p (n + 1) t).n
        (procRecipient cfg total r.1 (outcome idx) e p (n + 1) t).t
        (procRecipient_status hc total r.1 (outcome idx) e p (n + 1) ht)
      refine ⟨h1, h2, ?_, ?_, ?_, ?_⟩
      · show (sendLoop cfg outcome total rs (idx + 1) _ _ _ _).emailsSent = _
        rw [h3, procRecipient_e]
        simp [okEmails, Nat.add_assoc]
      · show (sendLoop cfg outcome total rs (idx + 1) _ _ _ _).pushesSent = _
        rw [h4, procRecipient_p]
        simp [okPushes, Nat.add_assoc]
      · show (sendLoop cfg outcome total rs (idx + 1) _ _ _ _).tracking = _
        rw [h5, procRecipient_e, procRecipient_p]
        simp [okEmails, okPushes, Nat.add_assoc]
      · show (cancelEvents cfg n t ++ _ ++ _ ++ _ ++ _).countP isDeliver = _
        rw [cancelEvents_none hc]
        simp [List.countP_append, countDeliver_procRecipient,
          countDeliver_sleepEvs, h6, isDeliver]
        omega
    · have hcr : ¬ cfg.crashAt = some n := by simp [hx]
      rw [sendLoop_cons_inner cfg outcome total r rs idx e p n t hb]
      obtain ⟨h1, h2, h3, h4, h5, h6⟩ := ih (idx + 1)
        (procRecipient cfg total r.1 (outcome idx) e p n t).e
        (procRecipient cfg total r.1 (outcome idx) e p n t).p
        (procRecipient cfg total r.1 (outcome idx) e p n t).n
        (procRecipient cfg total r.1 (outcome idx) e p n t).t
        (procRecipient_status hc total r.1 (outcome idx) e p n ht)
      refine ⟨h1, h2, ?_, ?_, ?_, ?_⟩
      · show (sendLoop cfg outcome total rs (idx + 1) _ _ _ _).emailsSent = _
        rw [h3, procRecipient_e]
        simp [okEmails, Nat.add_assoc]
      · show (sendLoop cfg outcome total rs (idx + 1) _ _ _ _).pushesSent = _
        rw [h4, procRecipient_p]
        simp [okPushes, Nat.add_assoc]
      · show (sendLoop cfg outcome total rs (idx + 1) _ _ _ _).tracking = _
        rw [h5, procRecipient_e, procRecipient_p]
        simp [okEmails, okPushes, Nat.add_assoc]
      · show ((procRecipient cfg total r.1 (outcome idx) e p n t).events
            ++ _ ++ _).countP isDeliver = _
        simp [List.countP_append, countDeliver_procRecipient,
          countDeliver_sleepEvs, h6, isDeliver]
        omega

theorem statusHistory_boundary {α : Type} (s : BatchStatus) :
    statusHistory [Event.boundaryRead (α := α) s] = [] := by
  simp [statusHistory, writtenStatus]

theorem emailsDelivered_boundary {α : Type} (s : BatchStatus) :
    emailsDelivered [Event.boundaryRead (α := α) s] = 0 := by
  simp [emailsDelivered]

theorem pushesDelivered_boundary {α : Type} (s : BatchStatus) :
    pushesDelivered [Event.boundaryRead (α := α) s] = 0 := by
  simp [pushesDelivered]

theorem deliveredUsers_boundary {α : Type} (s : BatchStatus) :
    deliveredUsers [Event.boundaryRead (α := α) s] = [] := by
  simp [deliveredUsers]

theorem cancelObserved_boundary_ne {α : Type} {s : BatchStatus}
    (hs : ¬ s = .cancelled) :
    cancelObserved (Event.boundaryRead (α := α) s) = false := by
  cases s <;> simp_all [cancelObserved]

theorem any_obs_eq_false {α : Type} {l : List (Event α)}
    (h : ∀ ev ∈ l, cancelObserved ev = false) :
    l.any cancelObserved = false := by
  rw [List.any_eq_false]
  intro ev hev
  simp [h ev hev]

/-- Monotone persisted status history for runs without a concurrent cancel
write (crashes allowed). -/
theorem sendLoop_mono {α : Type} {cfg : RunCfg} (outcome : Nat → SendOutcome)
    (total : Nat) (hc : cfg.cancelTime = none) :
    ∀ (l : List (α × α)) (idx e p n : Nat) (t : TrackingMeta),
      t.batch_status = .sending →
      monotonicHistory
        (statusHistory (sendLoop cfg outcome total l idx e p n t).events) = true := by
  intro l
  induction l with
  | nil =>
    intro idx e p n t ht
    by_cases hcr : cfg.crashAt = some n
    · rw [sendLoop_nil_crash cfg outcome total idx e p n t hcr]
      simp [statusHistory_append, cancelEvents_none hc, statusHistory,
        writtenStatus, errorMeta, monotonicHistory, isTerminal]
    · rw [sendLoop_nil_done cfg outcome total idx e p n t hcr]
      simp [statusHistory_append, cancelEvents_none hc, statusHistory,
        writtenStatus, completedMeta, monotonicHistory, isTerminal]
  | cons r rs ih =>
    intro idx e p n t ht
    by_cases hb : idx % 100 = 0
    · by_cases hcr : cfg.crashAt = some n
      · rw [sendLoop_cons_bcrash cfg outcome total r rs idx e p n t hb hcr]
        simp [statusHistory_append, cancelEvents_none hc, statusHistory,
          writtenStatus, errorMeta, monotonicHistory, isTerminal]
      · have hcc : ¬ (cancelState cfg n t).batch_status = .cancelled := by
          rw [cancelState_none hc, ht]; simp
        rw [sendLoop_cons_boundary cfg outcome total r rs idx e p n t hb hcr hcc,
          cancelState_none hc]
        show monotonicHistory (statusHistory
          (cancelEvents cfg n t ++ [Event.boundaryRead t.batch_status]
            ++ _ ++ _ ++ _)) = true
        rw [cancelEvents_none hc]
        simp only [List.nil_append, statusHistory_append, ht,
          statusHistory_boundary, statusHistory_sleepEvs, List.append_nil]
        rcases statusHistory_procRecipient_none hc total r.1 (outcome idx)
            e p (n + 1) t with hP | hP <;>
          rw [hP] <;>
          simp only [List.nil_append, List.cons_append,
            monotonicHistory_sending_cons] <;>
          exact ih (idx + 1) _ _ _ _
            (procRecipient_status hc total r.1 (outcome idx) e p (n + 1) ht)
    · rw [sendLoop_cons_inner cfg outcome total r rs idx e p n t hb]
      show monotonicHistory (statusHistory (_ ++ _ ++ _)) = true
      simp only [statusHistory_append, statusHistory_sleepEvs, List.append_nil]
      rcases statusHistory_procRecipient_none hc total r.1 (outcome idx)
          e p n t with hP | hP <;>
        rw [hP] <;>
        simp only [List.nil_append, List.cons_append,
          monotonicHistory_sending_cons] <;>
        exact ih (idx + 1) _ _ _ _
          (procRecipient_status hc total r.1 (outcome idx) e p n ht)

/-- A run whose background task ends with local status `failed` has persisted
exactly the failure metadata: status `failed`, the exception description, and
no counter fields. -/
theorem sendLoop_failed {α : Type} {cfg : RunCfg} (outcome : Nat → SendOutcome)
    (total : Nat) :
    ∀ (l : List (α × α)) (idx e p n : Nat) (t : TrackingMeta),
      (sendLoop cfg outcome total l idx e p n t).localStatus = .failed →
      (sendLoop cfg outcome total l idx e p n t).tracking =
        some (errorMeta cfg.crashMsg) ∧
      (sendLoop cfg outcome total l idx e p n t).localError =
        some cfg.crashMsg := by
  intro l
  induction l with
  | nil =>
    intro idx e p n t hf
    by_cases hcr : cfg.crashAt = some n
    · rw [sendLoop_nil_crash cfg outcome total idx e p n t hcr]
      exact ⟨rfl, rfl⟩
    · rw [sendLoop_nil_done cfg outcome total idx e p n t hcr] at hf
      simp at hf
  | cons r rs ih =>
    intro idx e p n t hf
    by_cases hb : idx % 100 = 0
    · by_cases hcr : cfg.crashAt = some n
      · rw [sendLoop_cons_bcrash cfg outcome total r rs idx e p n t hb hcr]
        exact ⟨rfl, rfl⟩
      · by_cases hcc : (cancelState cfg n t).batch_status = .cancelled
        · by_cases hcr2 : cfg.crashAt = some (n + 1)
          · rw [sendLoop_cons_cancelled_crash cfg outcome total r rs idx
              e p n t hb hcr hcc hcr2]
            exact ⟨rfl, rfl⟩
          · rw [sendLoop_cons_cancelled cfg outcome total r rs idx
              e p n t hb hcr hcc hcr2] at hf
            simp at hf
        · rw [sendLoop_cons_boundary cfg outcome total r rs idx
            e p n t hb hcr hcc] at hf ⊢
          exact ih (idx + 1) _ _ _ _ hf
    · rw [sendLoop_cons_inner cfg outcome total r rs idx e p n t hb] at hf ⊢
      exact ih (idx + 1) _ _ _ _ hf

/-- The local counters equal the number of delivery attempts whose result had
the corresponding flag set: deliveries already made are never rolled back. -/
theorem sendLoop_counters {α : Type} {cfg : RunCfg} (outcome : Nat → SendOutcome)
    (total : Nat) :
    ∀ (l : List (α × α)) (idx e p n : Nat) (t : TrackingMeta),
      (sendLoop cfg outcome total l idx e p n t).emailsSent =
        e + emailsDelivered (sendLoop cfg outcome total l idx e p n t).events ∧
      (sendLoop cfg outcome total l idx e p n t).pushesSent =
        p + pushesDelivered (sendLoop cfg outcome total l idx e p n t).events := by
  intro l
  induction l with
  | nil =>
    intro idx e p n t
    by_cases hcr : cfg.crashAt = some n
    · rw [sendLoop_nil_crash cfg outcome total idx e p n t hcr]
      rcases cancelEvents_shape (α := α) cfg n t with h | ⟨c, h⟩ <;>
        simp [h, emailsDelivered, pushesDelivered]
    · rw [sendLoop_nil_done cfg outcome total idx e p n t hcr]
      rcases cancelEvents_shape (α := α) cfg n t with h | ⟨c, h⟩ <;>
        simp [h, emailsDelivered, pushesDelivered]
  | cons r rs ih =>
    intro idx e p n t
    by_cases hb : idx % 100 = 0
    · by_cases hcr : cfg.crashAt = some n
      · rw [sendLoop_cons_bcrash cfg outcome total r rs idx e p n t hb hcr]
        rcases cancelEvents_shape (α := α) cfg n t with h | ⟨c, h⟩ <;>
          simp [h, emailsDelivered, pushesDelivered]
      · by_cases hcc : (cancelState cfg n t).batch_status = .cancelled
        · by_cases hcr2 : cfg.crashAt = some (n + 1)
          · rw [sendLoop_cons_cancelled_crash cfg outcome total r rs idx
              e p n t hb hcr hcc hcr2]
            rcases cancelEvents_shape (α := α) cfg n t with h | ⟨c, h⟩ <;>
              rcases cancelEvents_shape (α := α) cfg (n + 1)
                  (cancelState cfg n t) with h2 | ⟨c2, h2⟩ <;>
                simp [h, h2, emailsDelivered, pushesDelivered]
          · rw [sendLoop_cons_cancelled cfg outcome total r rs idx
              e p n t hb hcr hcc hcr2]
            rcases cancelEvents_shape (α := α) cfg n t with h | ⟨c, h⟩ <;>
              rcases cancelEvents_shape (α := α) cfg (n + 1)
                  (cancelState cfg n t) with h2 | ⟨c2, h2⟩ <;>
                simp [h, h2, emailsDelivered, pushesDelivered]
        · rw [sendLoop_cons_boundary cfg outcome total r rs idx e p n t hb hcr hcc]
          obtain ⟨ih1, ih2⟩ := ih (idx + 1)
            (procRecipient cfg total r.1 (outcome idx) e p (n + 1)
              (cancelState cfg n t)).e
            (procRecipient cfg total r.1 (outcome idx) e p (n + 1)
              (cancelState cfg n t)).p
            (procRecipient cfg total r.1 (outcome idx) e p (n + 1)
              (cancelState cfg n t)).n
            (procRecipient cfg total r.1 (outcome idx) e p (n + 1)
              (cancelState cfg n t)).t
          constructor
          · show (sendLoop cfg outcome total rs (idx + 1) _ _ _ _).emailsSent = _
            rw [ih1, emailsDelivered_append, emailsDelivered_append,
              emailsDelivered_append, emailsDelivered_append,
              emailsDelivered_cancelEvents, emailsDelivered_boundary,
              emailsDelivered_procRecipient, emailsDelivered_sleepEvs,
              procRecipient_e]
            omega
          · show (sendLoop cfg outcome total rs (idx + 1) _ _ _ _).pushesSent = _
            rw [ih2, pushesDelivered_append, pushesDelivered_append,
              pushesDelivered_append, pushesDelivered_append,
              pushesDelivered_cancelEvents, pushesDelivered_boundary,
              pushesDelivered_procRecipient, pushesDelivered_sleepEvs,
              procRecipient_p]
            omega
    · rw [sendLoop_cons_inner cfg outcome total r rs idx e p n t hb]
      obtain ⟨ih1, ih2⟩ := ih (idx + 1)
        (procRecipient cfg total r.1 (outcome idx) e p n t).e
        (procRecipient cfg total r.1 (outcome idx) e p n t).p
        (procRecipient cfg total r.1 (outcome idx) e p n t).n
        (procRecipient cfg total r.1 (outcome idx) e p n t).t
      constructor
      · show (sendLoop cfg outcome total rs (idx + 1) _ _ _ _).emailsSent = _
        rw [ih1, emailsDelivered_append, emailsDelivered_append,
          emailsDelivered_procRecipient, emailsDelivered_sleepEvs,
          procRecipient_e]
        omega
      · show (sendLoop cfg outcome total rs (idx + 1) _ _ _ _).pushesSent = _
        rw [ih2, pushesDelivered_append, pushesDelivered_append,
          pushesDelivered_procRecipient, pushesDelivered_sleepEvs,
          procRecipient_p]
        omega

theorem noDeliverAfter_cons_obs {α : Type} (ev : Event α) (rest : List (Event α))
    (h : cancelObserved ev = true) :
    noDeliverAfterCancelObs (ev :: rest) =
      rest.all fun x => !(isDeliver x) := by
  simp [noDeliverAfterCancelObs, h]

/-- After a chunk-boundary read observes `cancelled`, no delivery attempt
occurs in the rest of the run (any interleaving, any crash schedule). -/
theorem sendLoop_noDeliverAfter {α : Type} {cfg : RunCfg}
    (outcome : Nat → SendOutcome) (total : Nat) :
    ∀ (l : List (α × α)) (idx e p n : Nat) (t : TrackingMeta),
      noDeliverAfterCancelObs
        (sendLoop cfg outcome total l idx e p n t).events = true := by
  intro l
  induction l with
  | nil =>
    intro idx e p n t
    by_cases hcr : cfg.crashAt = some n
    · rw [sendLoop_nil_crash cfg outcome total idx e p n t hcr]
      apply noDeliverAfter_of_noObs
      intro ev hev
      rcases List.mem_append.mp hev with h | h
      · exact noObs_cancelEvents cfg n t ev h
      · rcases List.mem_singleton.mp h with rfl; rfl
    · rw [sendLoop_nil_done cfg outcome total idx e p n t hcr]
      apply noDeliverAfter_of_noObs
      intro ev hev
      rcases List.mem_append.mp hev with h | h
      · exact noObs_cancelEvents cfg n t ev h
      · rcases List.mem_singleton.mp h with rfl; rfl
  | cons r rs ih =>
    intro idx e p n t
    by_cases hb : idx % 100 = 0
    · by_cases hcr : cfg.crashAt = some n
      · rw [sendLoop_cons_bcrash cfg outcome total r rs idx e p n t hb hcr]
        apply noDeliverAfter_of_noObs
        intro ev hev
        rcases List.mem_append.mp hev with h | h
        · exact noObs_cancelEvents cfg n t ev h
        · rcases List.mem_singleton.mp h with rfl; rfl
      · by_cases hcc : (cancelState cfg n t).batch_status = .cancelled
        · have hobs : cancelObserved
              (Event.boundaryRead (α := α) (cancelState cfg n t).batch_status) =
                true := by
            rw [hcc]; rfl
          have hall : ∀ w : Event α, isDeliver w = false →
              ((cancelEvents (α := α) cfg (n + 1) (cancelState cfg n t) ++ [w]).all
                fun x => !(isDeliver x)) = true := by
            intro w hw
            rw [List.all_append]
            simp only [Bool.and_eq_true, List.all_eq_true]
            constructor
            · intro ev hev
              simp [noDeliver_cancelEvents cfg (n + 1) (cancelState cfg n t) ev hev]
            · intro ev hev
              rcases List.mem_singleton.mp hev with rfl
              simp [hw]
          by_cases hcr2 : cfg.crashAt = some (n + 1)
          · rw [sendLoop_cons_cancelled_crash cfg outcome total r rs idx
              e p n t hb hcr hcc hcr2]
            show noDeliverAfterCancelObs
              (cancelEvents cfg n t ++ [_] ++ _ ++ [_]) = true
            rw [List.append_assoc, List.append_assoc,
              noDeliverAfter_append_of_noObs _ _ (noObs_cancelEvents cfg n t),
              List.singleton_append, noDeliverAfter_cons_obs _ _ hobs]
            exact hall _ rfl
          · rw [sendLoop_cons_cancelled cfg outcome total r rs idx
              e p n t hb hcr hcc hcr2]
            show noDeliverAfterCancelObs
              (cancelEvents cfg n t ++ [_] ++ _ ++ [_]) = true
            rw [List.append_assoc, List.append_assoc,
              noDeliverAfter_append_of_noObs _ _ (noObs_cancelEvents cfg n t),
              List.singleton_append, noDeliverAfter_cons_obs _ _ hobs]
            exact hall _ rfl
        · rw [sendLoop_cons_boundary cfg outcome total r rs idx e p n t hb hcr hcc]
          show noDeliverAfterCancelObs
            (cancelEvents cfg n t ++ [_] ++ _ ++ _ ++
              (sendLoop cfg outcome total rs (idx + 1) _ _ _ _).events) = true
          have hX : ∀ ev ∈ cancelEvents (α := α) cfg n t
              ++ [Event.boundaryRead (cancelState cfg n t).batch_status]
              ++ (procRecipient cfg total r.1 (outcome idx) e p (n + 1)
                   (cancelState cfg n t)).events
              ++ (if (idx + 1) % 100 = 0 ∧ rs.isEmpty = false
                  then [Event.sleepEvent] else []),
              cancelObserved ev = false := by
            intro ev hev
            rcases List.mem_append.mp hev with hev | hev
            · rcases List.mem_append.mp hev with hev | hev
              · rcases List.mem_append.mp hev with hev | hev
                · exact noObs_cancelEvents cfg n t ev hev
                · rcases List.mem_singleton.mp hev with rfl
                  exact cancelObserved_boundary_ne hcc
              · exact noObs_procRecipient cfg total r.1 (outcome idx)
                  e p (n + 1) (cancelState cfg n t) ev hev
            · exact noObs_sleepEvs _ ev hev
          rw [noDeliverAfter_append_of_noObs _ _ hX]
          exact ih (idx + 1) _ _ _ _
    · rw [sendLoop_cons_inner cfg outcome total r rs idx e p n t hb]
      show noDeliverAfterCancelObs
        (_ ++ _ ++ (sendLoop cfg outcome total rs (idx + 1) _ _ _ _).events) = true
      have hX : ∀ ev ∈ (procRecipient cfg total r.1 (outcome idx) e p n t).events
          ++ (if (idx + 1) % 100 = 0 ∧ rs.isEmpty = false
              then [Event.sleepEvent] else []),
          cancelObserved ev = false := by
        intro ev hev
        rcases List.mem_append.mp hev with hev | hev
        · exact noObs_procRecipient cfg total r.1 (outcome idx) e p n t ev hev
        · exact noObs_sleepEvs _ ev hev
      rw [noDeliverAfter_append_of_noObs _ _ hX]
      exact ih (idx + 1) _ _ _ _

/-- If some chunk-boundary read observes `cancelled` in a crash-free run, the
run ends with local status `cancelled` and the persisted record terminal
`cancelled`. -/
theorem sendLoop_cancelObs {α : Type} {cfg : RunCfg}
    (outcome : Nat → SendOutcome) (total : Nat) (hx : cfg.crashAt = none) :
    ∀ (l : List (α × α)) (idx e p n : Nat) (t : TrackingMeta),
      (sendLoop cfg outcome total l idx e p n t).events.any cancelObserved =
        true →
      (sendLoop cfg outcome total l idx e p n t).localStatus = .cancelled ∧
      ∃ m, (sendLoop cfg outcome total l idx e p n t).tracking = some m ∧
        m.batch_status = .cancelled := by
  intro l
  induction l with
  | nil =>
    intro idx e p n t hany
    have hcr : ¬ cfg.crashAt = some n := by simp [hx]
    rw [sendLoop_nil_done cfg outcome total idx e p n t hcr] at hany
    have : (cancelEvents (α := α) cfg n t
        ++ [Event.finalWrite (completedMeta total e p)]).any cancelObserved =
          false := by
      apply any_obs_eq_false
      intro ev hev
      rcases List.mem_append.mp hev with h | h
      · exact noObs_cancelEvents cfg n t ev h
      · rcases List.mem_singleton.mp h with rfl; rfl
    rw [this] at hany
    cases hany
  | cons r rs ih =>
    intro idx e p n t hany
    have hcr : ¬ cfg.crashAt = some n := by simp [hx]
    have hcr2 : ¬ cfg.crashAt = some (n + 1) := by simp [hx]
    by_cases hb : idx % 100 = 0
    · by_cases hcc : (cancelState cfg n t).batch_status = .cancelled
      · rw [sendLoop_cons_cancelled cfg outcome total r rs idx e p n t hb hcr
          hcc hcr2]
        exact ⟨rfl, cancelledMeta (cancelState cfg n t) e p, rfl, rfl⟩
      · rw [sendLoop_cons_boundary cfg outcome total r rs idx e p n t hb hcr
          hcc] at hany ⊢
        have hX : (cancelEvents (α := α) cfg n t
            ++ [Event.boundaryRead (cancelState cfg n t).batch_status]
            ++ (procRecipient cfg total r.1 (outcome idx) e p (n + 1)
                 (cancelState cfg n t)).events
            ++ (if (idx + 1) % 100 = 0 ∧ rs.isEmpty = false
                then [Event.sleepEvent] else [])).any cancelObserved = false := by
          apply any_obs_eq_false
          intro ev hev
          rcases List.mem_append.mp hev with hev | hev
          · rcases List.mem_append.mp hev with hev | hev
            · rcases List.mem_append.mp hev with hev | hev
              · exact noObs_cancelEvents cfg n t ev hev
              · rcases List.mem_singleton.mp hev with rfl
                exact cancelObserved_boundary_ne hcc
            · exact noObs_procRecipient cfg total r.1 (outcome idx)
                e p (n + 1) (cancelState cfg n t) ev hev
          · exact noObs_sleepEvs _ ev hev
        dsimp only at hany
        rw [List.any_append, hX] at hany
        simp only [Bool.false_or] at hany
        exact ih (idx + 1) _ _ _ _ hany
    · rw [sendLoop_cons_inner cfg outcome total r rs idx e p n t hb] at hany ⊢
      have hX : ((procRecipient cfg total r.1 (outcome idx) e p n t).events
          ++ (if (idx + 1) % 100 = 0 ∧ rs.isEmpty = false
              then [Event.sleepEvent] else [])).any cancelObserved = false := by
        apply any_obs_eq_false
        intro ev hev
        rcases List.mem_append.mp hev with hev | hev
        · exact noObs_procRecipient cfg total r.1 (outcome idx) e p n t ev hev
        · exact noObs_sleepEvs _ ev hev
      dsimp only at hany
      rw [List.any_append, hX] at hany
      simp only [Bool.false_or] at hany
      exact ih (idx + 1) _ _ _ _ hany

/-- The users receiving a delivery attempt form a sublist of the resolved
recipient list's user ids (any interleaving, any crash schedule). -/
theorem sendLoop_deliveredUsers {α : Type} {cfg : RunCfg}
    (outcome : Nat → SendOutcome) (total : Nat) :
    ∀ (l : List (α × α)) (idx e p n : Nat) (t : TrackingMeta),
      List.Sublist
        (deliveredUsers (sendLoop cfg outcome total l idx e p n t).events)
        (l.map Prod.fst) := by
  intro l
  induction l with
  | nil =>
    intro idx e p n t
    by_cases hcr : cfg.crashAt = some n
    · rw [sendLoop_nil_crash cfg outcome total idx e p n t hcr]
      rcases cancelEvents_shape (α := α) cfg n t with h | ⟨c, h⟩ <;>
        simp [h, deliveredUsers]
    · rw [sendLoop_nil_done cfg outcome total idx e p n t hcr]
      rcases cancelEvents_shape (α := α) cfg n t with h | ⟨c, h⟩ <;>
        simp [h, deliveredUsers]
  | cons r rs ih =>
    intro idx e p n t
    by_cases hb : idx % 100 = 0
    · by_cases hcr : cfg.crashAt = some n
      · rw [sendLoop_cons_bcrash cfg outcome total r rs idx e p n t hb hcr]
        rcases cancelEvents_shape (α := α) cfg n t with h | ⟨c, h⟩ <;>
          simp [h, deliveredUsers]
      · by_cases hcc : (cancelState cfg n t).batch_status = .cancelled
        · by_cases hcr2 : cfg.crashAt = some (n + 1)
          · rw [sendLoop_cons_cancelled_crash cfg outcome total r rs idx
              e p n t hb hcr hcc hcr2]
            rcases cancelEvents_shape (α := α) cfg n t with h | ⟨c, h⟩ <;>
              rcases cancelEvents_shape (α := α) cfg (n + 1)
                  (cancelState cfg n t) with h2 | ⟨c2, h2⟩ <;>
                simp [h, h2, deliveredUsers]
          · rw [sendLoop_cons_cancelled cfg outcome total r rs idx
              e p n t hb hcr hcc hcr2]
            rcases cancelEvents_shape (α := α) cfg n t with h | ⟨c, h⟩ <;>
              rcases cancelEvents_shape (α := α) cfg (n + 1)
                  (cancelState cfg n t) with h2 | ⟨c2, h2⟩ <;>
                simp [h, h2, deliveredUsers]
        · rw [sendLoop_cons_boundary cfg outcome total r rs idx e p n t hb hcr hcc]
          show List.Sublist (deliveredUsers (cancelEvents cfg n t ++ [_] ++ _ ++ _
            ++ (sendLoop cfg outcome total rs (idx + 1) _ _ _ _).events)) _
          rw [deliveredUsers_append, deliveredUsers_append, deliveredUsers_append,
            deliveredUsers_append, deliveredUsers_cancelEvents,
            deliveredUsers_boundary, deliveredUsers_procRecipient,
            deliveredUsers_sleepEvs]
          simp only [List.nil_append, List.append_nil, List.singleton_append,
            List.map_cons]
          exact List.Sublist.cons₂ r.1 (ih (idx + 1) _ _ _ _)
    · rw [sendLoop_cons_inner cfg outcome total r rs idx e p n t hb]
      show List.Sublist (deliveredUsers (_ ++ _ ++
        (sendLoop cfg outcome total rs (idx + 1) _ _ _ _).events)) _
      rw [deliveredUsers_append, deliveredUsers_append,
        deliveredUsers_procRecipient, deliveredUsers_sleepEvs]
      simp only [List.append_nil, List.singleton_append, List.map_cons]
      exact List.Sublist.cons₂ r.1 (ih (idx + 1) _ _ _ _)

/-! ### Resolution: the user_account_map has one entry per user id -/

theorem dictInsert_keys_nodup {α β : Type} [DecidableEq α] (m : List (α × β))
    (k : α) (v : β) (h : (m.map Prod.fst).Nodup) :
    ((dictInsert m k v).map Prod.fst).Nodup := by
  unfold dictInsert
  split
  · have heq : (m.map fun q => if q.1 = k then (k, v) else q).map Prod.fst =
        m.map Prod.fst := by
      rw [List.map_map]
      apply List.map_congr_left
      intro q hq
      by_cases hk : q.1 = k
      · simp [Function.comp, hk]
      · simp [Function.comp, hk]
    rw [heq]; exact h
  · rename_i hna
    rw [List.map_append]
    have hk : k ∉ m.map Prod.fst := by
      intro hmem
      rcases List.mem_map.mp hmem with ⟨q, hq, hq2⟩
      exact hna (List.any_eq_true.mpr ⟨q, hq, by simp [hq2]⟩)
    simp [List.nodup_append, h, hk]

theorem foldl_preserve {γ β : Type} {P : γ → Prop} (step : γ → β → γ)
    (hstep : ∀ m x, P m → P (step m x)) :
    ∀ (l : List β) (m : γ), P m → P (l.foldl step m) := by
  intro l
  induction l with
  | nil => intro m hm; exact hm
  | cons x xs ih => intro m hm; exact ih (step m x) (hstep m x hm)

theorem buildUserAccountMap_nodup {α : Type} [DecidableEq α]
    (target_user_ids target_account_ids : Option (List α))
    (accountOf : α → Option α)
    (accountsById : List α → List (α × Option α))
    (allPersonalAccounts : List (α × Option α)) :
    ((buildUserAccountMap target_user_ids target_account_ids accountOf
        accountsById allPersonalAccounts).map Prod.fst).Nodup := by
  unfold buildUserAccountMap
  split
  · refine foldl_preserve (P := fun m : List (α × α) => (m.map Prod.fst).Nodup) _
      (fun m uid hm => ?_) _ _ (by simp)
    cases haoc : accountOf uid with
    | some aid => simpa [haoc] using dictInsert_keys_nodup m uid aid hm
    | none => simpa [haoc] using hm
  · split
    · refine foldl_preserve (P := fun m : List (α × α) => (m.map Prod.fst).Nodup) _
        (fun m row hm => ?_) _ _ (by simp)
      cases hrow : row.2 with
      | some uid => simpa [hrow] using dictInsert_keys_nodup m uid row.1 hm
      | none => simpa [hrow] using hm
    · refine foldl_preserve (P := fun m : List (α × α) => (m.map Prod.fst).Nodup) _
        (fun m row hm => ?_) _ _ (by simp)
      cases hrow : row.2 with
      | some uid => simpa [hrow] using dictInsert_keys_nodup m uid row.1 hm
      | none => simpa [hrow] using hm

/-! ### Top-level run unfolding -/

theorem emailsDelivered_cons_insert {α : Type} (m : TrackingMeta)
    (l : List (Event α)) :
    emailsDelivered (Event.insertTracking m :: l) = emailsDelivered l := by
  simp [emailsDelivered, List.countP_cons]

theorem pushesDelivered_cons_insert {α : Type} (m : TrackingMeta)
    (l : List (Event α)) :
    pushesDelivered (Event.insertTracking m :: l) = pushesDelivered l := by
  simp [pushesDelivered, List.countP_cons]

theorem deliveredUsers_cons_insert {α : Type} (m : TrackingMeta)
    (l : List (Event α)) :
    deliveredUsers (Event.insertTracking m :: l) = deliveredUsers l := by
  simp [deliveredUsers]

theorem countDeliver_cons_insert {α : Type} (m : TrackingMeta)
    (l : List (Event α)) :
    (Event.insertTracking m :: l).countP isDeliver = l.countP isDeliver := by
  simp [List.countP_cons, isDeliver]

theorem statusHistory_cons_insert {α : Type} (m : TrackingMeta)
    (l : List (Event α)) :
    statusHistory (Event.insertTracking m :: l) =
      m.batch_status :: statusHistory l := by
  simp [statusHistory, writtenStatus]

theorem noDeliverAfter_cons_noobs {α : Type} (ev : Event α)
    (rest : List (Event α)) (h : cancelObserved ev = false) :
    noDeliverAfterCancelObs (ev :: rest) = noDeliverAfterCancelObs rest := by
  simp [noDeliverAfterCancelObs, h]

theorem send_nonempty {α : Type} (cfg : RunCfg) (recipients : List (α × α))
    (outcome : Nat → SendOutcome) (hne : ¬ recipients.isEmpty = true)
    (hcr : ¬ cfg.crashAt = some 0) :
    send_notification_to_users cfg recipients outcome =
      { sendLoop cfg outcome recipients.length recipients 0 0 0 1
          (insertMeta recipients.length) with
        events := .insertTracking (insertMeta recipients.length) ::
          (sendLoop cfg outcome recipients.length recipients 0 0 0 1
            (insertMeta recipients.length)).events } := by
  unfold send_notification_to_users
  rw [if_neg hne, if_neg hcr]

theorem send_crash_at_insert {α : Type} (cfg : RunCfg)
    (recipients : List (α × α)) (outcome : Nat → SendOutcome)
    (hne : ¬ recipients.isEmpty = true) (hcr : cfg.crashAt = some 0) :
    send_notification_to_users cfg recipients outcome =
      { events := [], tracking := none, localStatus := .failed,
        localError := some cfg.crashMsg, emailsSent := 0, pushesSent := 0 } := by
  unfold send_notification_to_users
  rw [if_neg hne, if_pos hcr]

theorem send_deliveredUsers_sublist {α : Type} (cfg : RunCfg)
    (recipients : List (α × α)) (outcome : Nat → SendOutcome) :
    List.Sublist
      (deliveredUsers (send_notification_to_users cfg recipients outcome).events)
      (recipients.map Prod.fst) := by
  by_cases hne : recipients.isEmpty = true
  · unfold send_notification_to_users
    rw [if_pos hne]
    simp [deliveredUsers]
  · by_cases hcr : cfg.crashAt = some 0
    · rw [send_crash_at_insert cfg recipients outcome hne hcr]
      simp [deliveredUsers]
    · rw [send_nonempty cfg recipients outcome hne hcr]
      show List.Sublist (deliveredUsers (Event.insertTracking _ ::
        (sendLoop cfg outcome recipients.length recipients 0 0 0 1
          (insertMeta recipients.length)).events)) _
      rw [deliveredUsers_cons_insert]
      exact sendLoop_deliveredUsers outcome recipients.length recipients 0 0 0 1
        (insertMeta recipients.length)

/-! ### Concrete inputs used by counterexamples and witnesses -/

/-- Delivery succeeds on both channels for every recipient. -/
def allOk : Nat → SendOutcome := fun _ => SendOutcome.ok true true

/-- `k` distinct recipients with numeric user and account ids. -/
def natRecipients (k : Nat) : List (Nat × Nat) :=
  (List.range k).map fun i => (i, i)

/-- No concurrent cancel, no crash. -/
def cfgClean : RunCfg := ⟨none, none, "unexpected error"⟩

/-! ### Claims -/

/-- C1 (as stated, refuted): with 10 recipients all succeeding on both
channels and the cancel endpoint's write landing just before the first
periodic progress write (tracking operation 2), the persisted status history
is `[sending, cancelled, sending, sending, completed]`: the terminal
`cancelled` recorded by the cancel endpoint is later overwritten by the
dispatcher's periodic write (`sending`) and final write (`completed`), so the
history is not monotonic. -/
theorem noti_C1_cex :
    statusHistory (send_notification_to_users ⟨some 2, none, "m"⟩
        (natRecipients 10) allOk).events =
      [BatchStatus.sending, BatchStatus.cancelled, BatchStatus.sending,
       BatchStatus.sending, BatchStatus.completed] ∧
    monotonicHistory (statusHistory (send_notification_to_users
        ⟨some 2, none, "m"⟩ (natRecipients 10) allOk).events) = false := by
  decide

/-- C1 (amended): in the absence of a concurrent cancel write the persisted
BatchProgress status history of a dispatcher run is monotonic — `sending`
writes followed by exactly one terminal status that no later write changes
(crashes of any tracking operation allowed). -/
theorem noti_C1_amended {α : Type} (recipients : List (α × α))
    (outcome : Nat → SendOutcome) (crash : Option Nat) (msg : String) :
    monotonicHistory (statusHistory
      (send_notification_to_users ⟨none, crash, msg⟩ recipients outcome).events)
      = true := by
  by_cases hne : recipients.isEmpty = true
  · unfold send_notification_to_users
    rw [if_pos hne]
    rfl
  · by_cases hcr : (⟨none, crash, msg⟩ : RunCfg).crashAt = some 0
    · rw [send_crash_at_insert _ recipients outcome hne hcr]
      rfl
    · rw [send_nonempty _ recipients outcome hne hcr]
      show monotonicHistory (statusHistory (Event.insertTracking _ :: _)) = true
      rw [statusHistory_cons_insert]
      show monotonicHistory (BatchStatus.sending :: _) = true
      rw [monotonicHistory_sending_cons]
      exact sendLoop_mono outcome recipients.length rfl recipients 0 0 0 1
        (insertMeta recipients.length) rfl

/-- C2 (as stated, refuted): with 10 recipients and the cancel write landing
mid-chunk (just before the first periodic progress write), the cancel
operation does set the tracking record to `cancelled` (the externalCancel
event is accepted), yet the job does not halt as `cancelled`: the periodic
write overwrites the flag before the next chunk-boundary check, and the run
ends `completed` with the tracking record `completed`. -/
theorem noti_C2_cex :
    (send_notification_to_users ⟨some 2, none, "m"⟩ (natRecipients 10)
        allOk).events.any isAcceptedCancel = true ∧
    (send_notification_to_users ⟨some 2, none, "m"⟩ (natRecipients 10)
        allOk).localStatus = BatchStatus.completed ∧
    (send_notification_to_users ⟨some 2, none, "m"⟩ (natRecipients 10)
        allOk).tracking = some (completedMeta 10 10 10) := by
  decide

/-- C2 (amended): in any crash-free run, no delivery attempt is made after
the chunk-boundary read at which the dispatcher observes `cancelled`; and
whenever some chunk-boundary read does observe `cancelled` (in particular
when the cancel write lands at a chunk boundary), the job halts with local
status `cancelled` and the tracking record terminal `cancelled`.  A cancel
write landing mid-chunk may instead be overwritten by the periodic or final
write and never be observed. -/
theorem noti_C2_amended {α : Type} (recipients : List (α × α))
    (outcome : Nat → SendOutcome) (ct : Option Nat) (msg : String) :
    noDeliverAfterCancelObs
      (send_notification_to_users ⟨ct, none, msg⟩ recipients outcome).events
        = true ∧
    ((send_notification_to_users ⟨ct, none, msg⟩ recipients outcome).events.any
        cancelObserved = true →
      (send_notification_to_users ⟨ct, none, msg⟩ recipients outcome).localStatus
        = .cancelled ∧
      ∃ m, (send_notification_to_users ⟨ct, none, msg⟩ recipients
          outcome).tracking = some m ∧ m.batch_status = .cancelled) := by
  by_cases hne : recipients.isEmpty = true
  · constructor
    · unfold send_notification_to_users
      rw [if_pos hne]
      rfl
    · intro hany
      unfold send_notification_to_users at hany
      rw [if_pos hne] at hany
      simp at hany
  · have hcr : ¬ (⟨ct, none, msg⟩ : RunCfg).crashAt = some 0 := by simp
    rw [send_nonempty _ recipients outcome hne hcr]
    constructor
    · show noDeliverAfterCancelObs (Event.insertTracking _ :: _) = true
      rw [noDeliverAfter_cons_noobs
        (Event.insertTracking (insertMeta recipients.length)) _ rfl]
      exact sendLoop_noDeliverAfter outcome recipients.length recipients
        0 0 0 1 (insertMeta recipients.length)
    · intro hany
      dsimp only at hany
      rw [List.any_cons] at hany
      rw [show cancelObserved (Event.insertTracking (α := α)
        (insertMeta recipients.length)) = false from rfl] at hany
      simp only [Bool.false_or] at hany
      exact sendLoop_cancelObs outcome recipients.length rfl recipients
        0 0 0 1 (insertMeta recipients.length) hany

/-- C2 witness: 150 recipients, cancel write landing at the chunk-2 boundary
read (tracking operation 22): observed there, the run halts `cancelled` with
the tracking record terminal `cancelled`. -/
theorem noti_C2_witness :
    (send_notification_to_users ⟨some 22, none, "m"⟩ (natRecipients 150)
        allOk).localStatus = .cancelled ∧
    ∃ m, (send_notification_to_users ⟨some 22, none, "m"⟩ (natRecipients 150)
        allOk).tracking = some m ∧ m.batch_status = .cancelled :=
  (noti_C2_amended (natRecipients 150) allOk (some 22) "m").2 (by decide)

/-- C3 (as stated, refuted): 10 recipients all delivered on both channels,
then the final tracking write raises (tracking operation 4).  The local
counters are 10/10, but the failure write replaces the tracking record's
metadata with only `{batch_status: failed, error}` — `emails_sent` and
`pushes_sent` are absent from the persisted progress record, not preserved. -/
theorem noti_C3_cex :
    (send_notification_to_users ⟨none, some 4, "boom"⟩ (natRecipients 10)
        allOk).emailsSent = 10 ∧
    (send_notification_to_users ⟨none, some 4, "boom"⟩ (natRecipients 10)
        allOk).pushesSent = 10 ∧
    (send_notification_to_users ⟨none, some 4, "boom"⟩ (natRecipients 10)
        allOk).tracking = some (errorMeta "boom") ∧
    (errorMeta "boom").emails_sent = none ∧
    (errorMeta "boom").pushes_sent = none := by
  decide

/-- C3 (amended): when an unexpected exception escapes the processing loop
(crash schedule `some k`), the run ends with local status `failed` and the
exception description; the tracking record is either absent (raise before or
at the insert) or holds exactly the failure metadata `errorMeta msg`, whose
counter fields are dropped; the local counters (and the per-recipient
delivery records, reflected by the event trace) are preserved, equal to the
successful deliveries made before the exception — they are not rolled back,
but they are not in the progress record. -/
theorem noti_C3_amended {α : Type} (recipients : List (α × α))
    (outcome : Nat → SendOutcome) (ct : Option Nat) (k : Nat) (msg : String)
    (hne : ¬ recipients.isEmpty = true)
    (hf : (send_notification_to_users ⟨ct, some k, msg⟩ recipients
        outcome).localStatus = .failed) :
    (send_notification_to_users ⟨ct, some k, msg⟩ recipients outcome).localError
      = some msg ∧
    ((send_notification_to_users ⟨ct, some k, msg⟩ recipients outcome).tracking
        = none ∨
      (send_notification_to_users ⟨ct, some k, msg⟩ recipients outcome).tracking
        = some (errorMeta msg)) ∧
    (send_notification_to_users ⟨ct, some k, msg⟩ recipients outcome).emailsSent
      = emailsDelivered (send_notification_to_users ⟨ct, some k, msg⟩
          recipients outcome).events ∧
    (send_notification_to_users ⟨ct, some k, msg⟩ recipients outcome).pushesSent
      = pushesDelivered (send_notification_to_users ⟨ct, some k, msg⟩
          recipients outcome).events := by
  by_cases hcr : (⟨ct, some k, msg⟩ : RunCfg).crashAt = some 0
  · rw [send_crash_at_insert _ recipients outcome hne hcr]
    exact ⟨rfl, Or.inl rfl, rfl, rfl⟩
  · rw [send_nonempty _ recipients outcome hne hcr] at hf ⊢
    obtain ⟨ht, he⟩ := sendLoop_failed outcome recipients.length recipients
      0 0 0 1 (insertMeta recipients.length) hf
    obtain ⟨hc1, hc2⟩ := sendLoop_counters outcome recipients.length recipients
      0 0 0 1 (insertMeta recipients.length)
    refine ⟨he, Or.inr ht, ?_, ?_⟩
    · show (sendLoop _ outcome _ recipients 0 0 0 1 _).emailsSent =
        emailsDelivered (Event.insertTracking _ :: _)
      rw [emailsDelivered_cons_insert]
      simpa using hc1
    · show (sendLoop _ outcome _ recipients 0 0 0 1 _).pushesSent =
        pushesDelivered (Event.insertTracking _ :: _)
      rw [pushesDelivered_cons_insert]
      simpa using hc2

/-- C3 witness: 10 recipients, crash at the first chunk-boundary read
(tracking operation 1). -/
theorem noti_C3_witness :
    (send_notification_to_users ⟨none, some 1, "boom"⟩ (natRecipients 10)
        allOk).localError = some "boom" ∧
    ((send_notification_to_users ⟨none, some 1, "boom"⟩ (natRecipients 10)
        allOk).tracking = none ∨
      (send_notification_to_users ⟨none, some 1, "boom"⟩ (natRecipients 10)
        allOk).tracking = some (errorMeta "boom")) ∧
    (send_notification_to_users ⟨none, some 1, "boom"⟩ (natRecipients 10)
        allOk).emailsSent = emailsDelivered (send_notification_to_users
          ⟨none, some 1, "boom"⟩ (natRecipients 10) allOk).events ∧
    (send_notification_to_users ⟨none, some 1, "boom"⟩ (natRecipients 10)
        allOk).pushesSent = pushesDelivered (send_notification_to_users
          ⟨none, some 1, "boom"⟩ (natRecipients 10) allOk).events :=
  noti_C3_amended (natRecipients 10) allOk none 1 "boom" (by decide) (by decide)

/-- C4 (as stated, refuted): with zero resolved recipients the dispatcher
emits no tracking-record operation at all — the persisted/observable
BatchProgress is `none` and its status history is empty, so no observable
record ever reaches `failed`; only the local in-memory state is marked
failed with `'No recipients found'`, and no delivery or counter increment
happens. -/
theorem noti_C4_cex :
    (send_notification_to_users cfgClean ([] : List (Nat × Nat))
        allOk).tracking = none ∧
    statusHistory (send_notification_to_users cfgClean ([] : List (Nat × Nat))
        allOk).events = [] ∧
    (send_notification_to_users cfgClean ([] : List (Nat × Nat))
        allOk).localStatus = .failed ∧
    (send_notification_to_users cfgClean ([] : List (Nat × Nat))
        allOk).localError = some "No recipients found" ∧
    (send_notification_to_users cfgClean ([] : List (Nat × Nat))
        allOk).emailsSent = 0 ∧
    (send_notification_to_users cfgClean ([] : List (Nat × Nat))
        allOk).pushesSent = 0 := by
  decide

/-- C4 (amended): on zero resolved recipients the background task returns
immediately with only its local `batch_metadata` set to `failed` /
`'No recipients found'`: no delivery is attempted, no counter incremented, no
event emitted, and — the tracking record not having been created yet — no
persisted BatchProgress records the failure. -/
theorem noti_C4_amended {α : Type} (outcome : Nat → SendOutcome)
    (cfg : RunCfg) :
    send_notification_to_users cfg ([] : List (α × α)) outcome =
      { events := [], tracking := none, localStatus := .failed,
        localError := some "No recipients found",
        emailsSent := 0, pushesSent := 0 } := rfl

/-- C5: the cancel endpoint rejects a batch whose tracking status is terminal
(completed / cancelled / failed), leaving the record unchanged, and flips the
record to `cancelled` exactly when the current status is `pending` or
`sending`. -/
theorem noti_C5_cancel_guard (t : TrackingMeta) :
    (isTerminal t.batch_status = true →
      cancel_global_notification_batch (some t) =
        (some t, .conflict t.batch_status)) ∧
    ((cancel_global_notification_batch (some t)).2 = .accepted ↔
      t.batch_status = .pending ∨ t.batch_status = .sending) ∧
    ((cancel_global_notification_batch (some t)).2 = .accepted →
      (cancel_global_notification_batch (some t)).1 =
        some { t with batch_status := .cancelled }) := by
  obtain ⟨s, tot, es, ps, er, ib⟩ := t
  cases s <;> simp [cancel_global_notification_batch, isTerminal]

/-- C5 witness: cancelling a completed batch is rejected with a conflict and
the record is unchanged. -/
theorem noti_C5_witness :
    cancel_global_notification_batch
        (some ⟨.completed, some 5, some 5, some 5, none, true⟩) =
      (some ⟨.completed, some 5, some 5, some 5, none, true⟩,
       .conflict .completed) :=
  (noti_C5_cancel_guard ⟨.completed, some 5, some 5, some 5, none, true⟩).1
    (by decide)

/-- C6: a job with 250 resolved recipients, chunk size 100 and every delivery
succeeding on both channels processes exactly 3 chunks (3 boundary status
reads) with exactly 2 inter-chunk delays (no delay after the last chunk),
attempts delivery to all 250 recipients, and ends `completed` with
total_recipients = 250 and both channel counters = 250 in the tracking
record. -/
theorem noti_C6_scenario_250 :
    (send_notification_to_users cfgClean (natRecipients 250)
        allOk).localStatus = .completed ∧
    (send_notification_to_users cfgClean (natRecipients 250)
        allOk).emailsSent = 250 ∧
    (send_notification_to_users cfgClean (natRecipients 250)
        allOk).pushesSent = 250 ∧
    (send_notification_to_users cfgClean (natRecipients 250)
        allOk).tracking = some (completedMeta 250 250 250) ∧
    (send_notification_to_users cfgClean (natRecipients 250)
        allOk).events.countP isBoundaryRead = 3 ∧
    (send_notification_to_users cfgClean (natRecipients 250)
        allOk).events.countP isSleep = 2 ∧
    (send_notification_to_users cfgClean (natRecipients 250)
        allOk).events.countP isDeliver = 250 := by
  set_option maxRecDepth 200000 in decide

/-- C7: in a clean run (no cancel, no crash) a per-recipient delivery failure
is swallowed: the batch still processes every recipient, ends `completed`
with no error, and the counters equal, per channel, the number of recipients
whose delivery attempt returned success. -/
theorem noti_C7_continue_on_error {α : Type} (recipients : List (α × α))
    (outcome : Nat → SendOutcome) (msg : String)
    (hne : ¬ recipients.isEmpty = true) :
    (send_notification_to_users ⟨none, none, msg⟩ recipients
        outcome).localStatus = .completed ∧
    (send_notification_to_users ⟨none, none, msg⟩ recipients
        outcome).localError = none ∧
    (send_notification_to_users ⟨none, none, msg⟩ recipients
        outcome).emailsSent = okEmails outcome 0 recipients.length ∧
    (send_notification_to_users ⟨none, none, msg⟩ recipients
        outcome).pushesSent = okPushes outcome 0 recipients.length ∧
    (send_notification_to_users ⟨none, none, msg⟩ recipients outcome).tracking
      = some (completedMeta recipients.length
          (okEmails outcome 0 recipients.length)
          (okPushes outcome 0 recipients.length)) ∧
    (send_notification_to_users ⟨none, none, msg⟩ recipients
        outcome).events.countP isDeliver = recipients.length := by
  have hcr : ¬ (⟨none, none, msg⟩ : RunCfg).crashAt = some 0 := by simp
  rw [send_nonempty _ recipients outcome hne hcr]
  obtain ⟨h1, h2, h3, h4, h5, h6⟩ :=
    @sendLoop_clean α ⟨none, none, msg⟩ outcome recipients.length rfl rfl
      recipients 0 0 0 1 (insertMeta recipients.length) rfl
  refine ⟨h1, h2, by simpa using h3, by simpa using h4, by simpa using h5, ?_⟩
  show (Event.insertTracking _ :: _).countP isDeliver = recipients.length
  rw [countDeliver_cons_insert]
  exact h6

/-- C7 witness: 10 recipients, recipient #5 (index 4) raising → `completed`
with 9 successes on each channel. -/
theorem noti_C7_witness :
    (send_notification_to_users ⟨none, none, "m"⟩ (natRecipients 10)
        (fun i => if i = 4 then .err else .ok true true)).localStatus
      = .completed ∧
    (send_notification_to_users ⟨none, none, "m"⟩ (natRecipients 10)
        (fun i => if i = 4 then .err else .ok true true)).emailsSent = 9 ∧
    (send_notification_to_users ⟨none, none, "m"⟩ (natRecipients 10)
        (fun i => if i = 4 then .err else .ok true true)).pushesSent = 9 := by
  obtain ⟨h1, _, h3, h4, _, _⟩ := noti_C7_continue_on_error (natRecipients 10)
    (fun i => if i = 4 then .err else .ok true true) "m" (by decide)
  exact ⟨h1, h3.trans (by decide), h4.trans (by decide)⟩

/-- C8: the submit endpoint returns immediately with the fresh batch id and
status `pending`; the tracking store is untouched (no resolution or delivery
has happened) and the only effect is the dispatcher invocation appended to
the background-task queue for later execution. -/
theorem noti_C8_submit_immediate {α : Type} (req : GlobalNotificationRequest α)
    (admin : AdminToken) (batch_id : String) (store : Option TrackingMeta)
    (tasks : List (ScheduledSend α)) (uid : String)
    (h : (admin.user_id.orElse fun _ => admin.sub) = some uid) :
    send_global_notification req admin batch_id store tasks =
      .ok ({ batch_id := batch_id, status := .pending,
             message := "Global notification queued for sending",
             title := req.title },
           store,
           tasks ++ [⟨batch_id, uid, req.target_account_ids,
                      req.target_user_ids, req.title, req.message,
                      req.notification_type, req.send_email,
                      req.send_push⟩]) := by
  unfold send_global_notification
  rw [h]

/-- C8 witness at a concrete request. -/
theorem noti_C8_witness :
    send_global_notification
        (⟨"Hello", "World", "info", true, true, none, none⟩ :
          GlobalNotificationRequest Nat)
        ⟨some "admin1", none⟩ "batch-1" none [] =
      .ok (⟨"batch-1", .pending, "Global notification queued for sending",
            "Hello"⟩,
           none,
           [⟨"batch-1", "admin1", none, none, "Hello", "World", "info",
             true, true⟩]) :=
  noti_C8_submit_immediate
    (⟨"Hello", "World", "info", true, true, none, none⟩ :
      GlobalNotificationRequest Nat)
    ⟨some "admin1", none⟩ "batch-1" none [] "admin1" rfl

/-- C9: in crash-free processing of one recipient, the periodic tracking
write fires exactly when, after the per-channel increments, the combined
counter emails_sent + pushes_sent is a multiple of 10 (and the delivery did
not raise) — the cadence is keyed to the sum of the two channel counters. -/
theorem noti_C9_periodic_cadence {α : Type} (cfg : RunCfg) (total : Nat)
    (u : α) (o : SendOutcome) (e p n : Nat) (t : TrackingMeta)
    (hx : cfg.crashAt = none) :
    (procRecipient cfg total u o e p n t).events.any isPeriodicWrite = true ↔
      o ≠ .err ∧ (e + emailInc o + (p + pushInc o)) % 10 = 0 := by
  cases o with
  | err =>
    simp [procRecipient, isPeriodicWrite]
  | ok a b =>
    rcases cancelEvents_shape (α := α) cfg n t with h | ⟨c, h⟩ <;>
    · simp only [procRecipient, emailInc, pushInc]
      have hcr : ¬ cfg.crashAt = some n := by simp [hx]
      by_cases h10 :
          ((if a then e + 1 else e) + if b then p + 1 else p) % 10 = 0
      · simp only [h10, if_true, hcr, if_neg, if_false]
        simp [h, isPeriodicWrite]
        cases a <;> cases b <;> simp_all
      · simp only [h10, if_neg, if_false]
        simp [h, isPeriodicWrite]
        cases a <;> cases b <;> simp_all

/-- C9 witness: counters 4/4, a both-channel success brings the sum to 10 and
the periodic write fires. -/
theorem noti_C9_witness :
    (procRecipient cfgClean 10 (0 : Nat) (.ok true true) 4 4 2
        (insertMeta 10)).events.any isPeriodicWrite = true :=
  (noti_C9_periodic_cadence cfgClean 10 (0 : Nat) (.ok true true) 4 4 2
      (insertMeta 10) rfl).mpr (by decide)

/-- C10: recipient resolution builds a map keyed on user id — its key list
has no duplicates for any selector inputs — and therefore, in any run of the
dispatcher over the resolved map (any cancel/crash schedule), each user
receives at most one delivery attempt. -/
theorem noti_C10_dedup {α : Type} [DecidableEq α]
    (target_user_ids target_account_ids : Option (List α))
    (accountOf : α → Option α)
    (accountsById : List α → List (α × Option α))
    (allPersonalAccounts : List (α × Option α))
    (cfg : RunCfg) (outcome : Nat → SendOutcome) :
    ((buildUserAccountMap target_user_ids target_account_ids accountOf
        accountsById allPersonalAccounts).map Prod.fst).Nodup ∧
    (deliveredUsers (send_notification_to_users cfg
        (buildUserAccountMap target_user_ids target_account_ids accountOf
          accountsById allPersonalAccounts) outcome).events).Nodup := by
  have hkeys := buildUserAccountMap_nodup target_user_ids target_account_ids
    accountOf accountsById allPersonalAccounts
  exact ⟨hkeys,
    List.Nodup.sublist
      (send_deliveredUsers_sublist cfg _ outcome) hkeys⟩

end NotificationBatch
